import Mathlib

/-
  Verification of the trojan-oxide core against its specification.

  The Rust sources are shallowly embedded: bytes are `Nat`, byte buffers are
  `List Nat`, in-place mutation becomes explicit state passing (every fallible
  operation returns its result together with the state it leaves behind, since
  the Rust code mutates `self` even on some error paths), and async I/O is
  modelled by scripts: a read is a list of chunks handed to successive
  `read_buf` calls, a write appends to a trace of written bytes.
-/

namespace TrojanOxide

/-- Error kind of the record parsers (`src/utils/mod.rs`).  The payload strings
of the lite-tls revision carry no information relevant to control flow and are
omitted. -/
inductive ParserError
  | Incomplete
  | Invalid
  deriving DecidableEq

/-- Direction of the stream that produced the bytes under inspection
(`src/utils/lite_tls/lite_tls_stream.rs`). -/
inductive Direction
  | Inbound
  | Outbound
  deriving DecidableEq

/-- TLS version detected by `find_key_packets`. -/
inductive TlsVersion
  | Tls12
  | Tls13
  deriving DecidableEq

/-- Which directions have yielded an application-data (`0x17`) record
(`src/utils/lite_tls/tls_relay_buffer.rs`). -/
inductive Seen0x17
  | None
  | FromInbound
  | FromOutbound
  | BothDirections
  deriving DecidableEq

/-- `Seen0x17::witness`.  The Rust code executes `unreachable!()` on
`(BothDirections, _)`, which aborts the process; that outcome is modelled as
`none`. -/
def Seen0x17.witness (s : Seen0x17) (dir : Direction) : Option Seen0x17 :=
  match s, dir with
  | .None, .Inbound => some .FromInbound
  | .None, .Outbound => some .FromOutbound
  | .FromInbound, .Outbound => some .BothDirections
  | .FromOutbound, .Inbound => some .BothDirections
  | .BothDirections, _ => none
  | s, _ => some s

/-- `extract_len`: big-endian u16 read from the first two bytes of a slice. -/
def extract_len (buf : List Nat) : Nat :=
  buf.getD 0 0 * 256 + buf.getD 1 0

/-- `TlsRelayBuffer`: an append-only byte vector with a read cursor. -/
structure TlsRelayBuffer where
  inner : List Nat
  cursor : Nat
  deriving DecidableEq

namespace TlsRelayBuffer

/-- `TlsRelayBuffer::new`. -/
def new : TlsRelayBuffer := ⟨[], 0⟩

/-- `TlsRelayBuffer::len`. -/
def len (b : TlsRelayBuffer) : Nat := b.inner.length

/-- `TlsRelayBuffer::reset`. -/
def reset (_ : TlsRelayBuffer) : TlsRelayBuffer := ⟨[], 0⟩

/-- Appending freshly read bytes (`read_buf` into the underlying `Vec`). -/
def appendBytes (b : TlsRelayBuffer) (s : List Nat) : TlsRelayBuffer :=
  ⟨b.inner ++ s, b.cursor⟩

/-- `TlsRelayBuffer::checked_packets`. -/
def checked_packets (b : TlsRelayBuffer) : List Nat :=
  if b.cursor < b.inner.length then b.inner.take b.cursor else b.inner

/-- `TlsRelayBuffer::pop_checked_packets`: shift the unchecked tail to the
origin and lower the cursor accordingly. -/
def pop_checked_packets (b : TlsRelayBuffer) : TlsRelayBuffer :=
  ⟨(b.inner.drop b.cursor).take (b.inner.length - min b.cursor b.inner.length),
   b.cursor - (b.inner.length - (b.inner.length - min b.cursor b.inner.length))⟩

/-- `TlsRelayBuffer::check_client_hello`.  Note that the cursor assignment
happens before the whole-buffer check, so the mutated cursor survives the
`Invalid` return. -/
def check_client_hello (b : TlsRelayBuffer) :
    Except ParserError Unit × TlsRelayBuffer :=
  if b.inner.length < 5 then (.error .Incomplete, b)
  else if b.inner.take 3 ≠ [0x16, 0x03, 0x01] then (.error .Invalid, b)
  else if 5 + extract_len (b.inner.drop 3) ≠ b.inner.length then
    (.error .Invalid, ⟨b.inner, 5 + extract_len (b.inner.drop 3)⟩)
  else (.ok (), ⟨b.inner, 5 + extract_len (b.inner.drop 3)⟩)

/-- `TlsRelayBuffer::check_tls_packet`.  The cursor is advanced past the
declared record end before the trailing-bytes check, so an `Incomplete` from
that second check leaves the cursor beyond the end of the data. -/
def check_tls_packet (b : TlsRelayBuffer) :
    Except ParserError Nat × TlsRelayBuffer :=
  if b.inner.length < b.cursor + 5 then (.error .Incomplete, b)
  else if b.inner.length < b.cursor + 5 + extract_len (b.inner.drop (b.cursor + 3)) then
    (.error .Incomplete, ⟨b.inner, b.cursor + 5 + extract_len (b.inner.drop (b.cursor + 3))⟩)
  else
    (.ok (b.inner.getD b.cursor 0),
     ⟨b.inner, b.cursor + 5 + extract_len (b.inner.drop (b.cursor + 3))⟩)

end TlsRelayBuffer

/-- Outcome of `find_key_packets`: a version, a parser error, or a process
abort through the `unreachable!()` in `Seen0x17::witness`. -/
inductive FkpRes
  | ok (v : TlsVersion)
  | err (e : ParserError)
  | panicked
  deriving DecidableEq

/-- `TlsRelayBuffer::find_key_packets`: scan records from the cursor,
dispatching on the record-type byte. -/
def find_key_packets (b : TlsRelayBuffer) (s : Seen0x17) (d : Direction) :
    FkpRes × TlsRelayBuffer × Seen0x17 :=
  if h : b.inner.length < b.cursor + 1 then (.err .Incomplete, b, s)
  else if b.inner.getD b.cursor 0 = 0x17 then
    match hw : s.witness d with
    | none => (.panicked, b, s)
    | some s₂ =>
      if s₂ = .FromInbound then (.ok .Tls12, b, s₂)
      else
        match hc : b.check_tls_packet with
        | (.ok _, b₂) => find_key_packets b₂ s₂ d
        | (.error e, b₂) => (.err e, b₂, s₂)
  else if b.inner.getD b.cursor 0 = 0x14 then
    if s = .FromOutbound then (.ok .Tls13, b, s)
    else
      match hc : b.check_tls_packet with
      | (.ok _, b₂) => find_key_packets b₂ s d
      | (.error e, b₂) => (.err e, b₂, s)
  else if b.inner.getD b.cursor 0 = 0xff then (.ok .Tls12, b, s)
  else if b.inner.getD b.cursor 0 = 0x15 ∨ b.inner.getD b.cursor 0 = 0x16 then
    match hc : b.check_tls_packet with
    | (.ok _, b₂) => find_key_packets b₂ s d
    | (.error e, b₂) => (.err e, b₂, s)
  else (.err .Invalid, b, s)
termination_by b.inner.length + 1 - b.cursor
decreasing_by
  · simp only [TlsRelayBuffer.check_tls_packet] at hc
    split at hc
    · simp at hc
    · split at hc
      · simp at hc
      · simp only [Prod.mk.injEq] at hc
        obtain ⟨-, h₂⟩ := hc
        subst h₂
        show b.inner.length + 1 - (b.cursor + 5 + _) < b.inner.length + 1 - b.cursor
        omega
  · simp only [TlsRelayBuffer.check_tls_packet] at hc
    split at hc
    · simp at hc
    · split at hc
      · simp at hc
      · simp only [Prod.mk.injEq] at hc
        obtain ⟨-, h₂⟩ := hc
        subst h₂
        show b.inner.length + 1 - (b.cursor + 5 + _) < b.inner.length + 1 - b.cursor
        omega
  · simp only [TlsRelayBuffer.check_tls_packet] at hc
    split at hc
    · simp at hc
    · split at hc
      · simp at hc
      · simp only [Prod.mk.injEq] at hc
        obtain ⟨-, h₂⟩ := hc
        subst h₂
        show b.inner.length + 1 - (b.cursor + 5 + _) < b.inner.length + 1 - b.cursor
        omega

/-- Modelled from the spec: `LEAVE_TLS_COMMAND` is declared in
`src/protocol.rs` of the lite-tls revision, which is not among the provided
sources.  Section 6 of the spec fixes it as a 5-byte sequence `FF xx xx 00 00`
with `03 03` as the conventional version pair. -/
def LEAVE_TLS_COMMAND : List Nat := [0xff, 0x03, 0x03, 0x00, 0x00]

/-- Failure of a handshake step: end of stream, or a propagated parser
error. -/
inductive HsError
  | eof
  | parser (e : ParserError)
  deriving DecidableEq

/-- `LiteTlsStream::handshake_tls12_server` (`src/utils/lite_tls/lite_tls_stream.rs`).
The inbound stream is modelled by a script of chunks returned by successive
`read_buf` calls (an empty chunk is an EOF) and a trace of the bytes written to
it.  Returns (result, outbound_buf, inbound_buf, bytes written to inbound,
unconsumed read chunks). -/
def handshake_tls12_server (outbound_buf inbound_buf : TlsRelayBuffer)
    (readChunks : List (List Nat)) :
    Except HsError Unit × TlsRelayBuffer × TlsRelayBuffer × List Nat × List (List Nat) :=
  let outBuf₁ := if outbound_buf.checked_packets.length > 0
    then outbound_buf.pop_checked_packets else outbound_buf
  let written := outbound_buf.checked_packets ++ LEAVE_TLS_COMMAND
  match readChunks with
  | [] => (.error .eof, outBuf₁, inbound_buf, written, [])
  | c :: rest =>
    if c.length = 0 then (.error .eof, outBuf₁, inbound_buf, written, rest)
    else
      match (inbound_buf.appendBytes c).check_tls_packet with
      | (.error e, inBuf₂) => (.error (.parser e), outBuf₁, inBuf₂, written, rest)
      | (.ok t, inBuf₂) =>
        if t ≠ 0xff then (.error (.parser .Invalid), outBuf₁, inBuf₂, written, rest)
        else (.ok (), outBuf₁, inBuf₂.pop_checked_packets, written, rest)

/-- Modelled from the spec: `UdpRelayBuffer` (spec section 3), the cursored
byte buffer used by the UDP streams; its source file is not among the provided
sources.  `reserve` only affects capacity and is omitted. -/
structure UdpRelayBuffer where
  inner : List Nat
  cursor : Nat
  deriving DecidableEq

namespace UdpRelayBuffer

/-- A fresh (or reset) buffer. -/
def empty : UdpRelayBuffer := ⟨[], 0⟩

/-- Bytes from the cursor to the end. -/
def chunk (b : UdpRelayBuffer) : List Nat := b.inner.drop b.cursor

/-- Number of unconsumed bytes. -/
def remaining (b : UdpRelayBuffer) : Nat := b.inner.length - b.cursor

/-- Whether any unconsumed bytes remain. -/
def has_remaining (b : UdpRelayBuffer) : Bool := b.cursor < b.inner.length

/-- Move the cursor forward. -/
def advance (b : UdpRelayBuffer) (n : Nat) : UdpRelayBuffer :=
  ⟨b.inner, b.cursor + n⟩

/-- Drop the consumed prefix. -/
def compact (b : UdpRelayBuffer) : UdpRelayBuffer :=
  ⟨b.inner.drop b.cursor, 0⟩

/-- Append bytes at the end. -/
def extend_from_slice (b : UdpRelayBuffer) (s : List Nat) : UdpRelayBuffer :=
  ⟨b.inner ++ s, b.cursor⟩

end UdpRelayBuffer

/-- Big-endian bytes of a length or port, as produced by `u16::to_be_bytes`
after an `as u16` cast. -/
def u16_be_bytes (n : Nat) : List Nat := [n / 256 % 256, n % 256]

/-- Modelled from the spec: `MixAddrType` (spec section 3), whose source file
`src/utils/mix_addr.rs` is not among the provided sources. -/
inductive MixAddrType
  | V4 (ip : List Nat) (port : Nat)
  | V6 (ip : List Nat) (port : Nat)
  | Hostname (name : List Nat) (port : Nat)
  | None
  deriving DecidableEq

namespace MixAddrType

/-- `MixAddrType::is_none`. -/
def is_none : MixAddrType → Bool
  | .None => true
  | _ => false

/-- A concrete address in the sense of the spec's data model: IPv4, IPv6, or a
hostname of 1 to 255 bytes, with a 16-bit port. -/
def valid : MixAddrType → Prop
  | .V4 ip port => ip.length = 4 ∧ port < 65536
  | .V6 ip port => ip.length = 16 ∧ port < 65536
  | .Hostname name port => 0 < name.length ∧ name.length ≤ 255 ∧ port < 65536
  | .None => False

/-- Modelled from the spec: the wire encoding of section 3 — tag byte
(`0x01` IPv4, `0x03` hostname with a 1-byte length, `0x04` IPv6), address
bytes, then the port big-endian. -/
def write_buf : MixAddrType → List Nat
  | .V4 ip port => [0x01] ++ ip ++ u16_be_bytes port
  | .V6 ip port => [0x04] ++ ip ++ u16_be_bytes port
  | .Hostname name port => [0x03, name.length % 256] ++ name ++ u16_be_bytes port
  | .None => []

/-- Modelled from the spec: decoding — `Invalid` for an unknown tag,
`Incomplete` when fewer bytes than needed are present, and the cursor advances
past the encoding on success. -/
def from_encoded (buf : UdpRelayBuffer) :
    Except ParserError (MixAddrType × UdpRelayBuffer) :=
  let c := buf.chunk
  if c.length < 1 then .error .Incomplete
  else if c.getD 0 0 = 0x01 then
    if c.length < 7 then .error .Incomplete
    else .ok (.V4 ((c.drop 1).take 4) (c.getD 5 0 * 256 + c.getD 6 0), buf.advance 7)
  else if c.getD 0 0 = 0x03 then
    if c.length < 2 then .error .Incomplete
    else if c.length < 4 + c.getD 1 0 then .error .Incomplete
    else .ok (.Hostname ((c.drop 2).take (c.getD 1 0))
        (c.getD (2 + c.getD 1 0) 0 * 256 + c.getD (3 + c.getD 1 0) 0),
      buf.advance (4 + c.getD 1 0))
  else if c.getD 0 0 = 0x04 then
    if c.length < 19 then .error .Incomplete
    else .ok (.V6 ((c.drop 1).take 16) (c.getD 17 0 * 256 + c.getD 18 0), buf.advance 19)
  else .error .Invalid

end MixAddrType

/-- Poll outcome of an async operation. -/
inductive RPoll (α : Type)
  | ready (a : α)
  | pending
  deriving DecidableEq

/-- The `std::io::Error` kinds that the UDP streams produce. -/
inductive IOErr
  | other
  | interrupted
  | wouldBlock
  deriving DecidableEq

/-- The Trojan UDP frame written by `TrojanUdpStream::poll_proxy_stream_write`
(`src/utils/udp/trojan_udp_stream.rs`): encoded address, payload length as
`u16` big-endian (an `as u16` cast, hence modulo 65536), CRLF, payload. -/
def trojanFrame (p : List Nat) (a : MixAddrType) : List Nat :=
  a.write_buf ++ u16_be_bytes p.length ++ [0x0d, 0x0a] ++ p

/-- Send half of `TrojanUdpStream`. -/
structure TrojanSendHalf where
  send_buffer : UdpRelayBuffer
  data_len : Nat
  deriving DecidableEq

/-- `TrojanUdpStream::poll_proxy_stream_write`.  `x` is the result of the
underlying `poll_write` on the pending chunk (`none` = `Pending`); the third
component is the bytes that write emitted.  An empty send buffer is first
refilled with the frame for `(p, a)`. -/
def trojan_poll_write (st : TrojanSendHalf) (p : List Nat) (a : MixAddrType)
    (x : Option Nat) : RPoll Nat × TrojanSendHalf × List Nat :=
  let st₁ := if st.send_buffer.inner.length = 0
    then ⟨UdpRelayBuffer.empty.extend_from_slice (trojanFrame p a), p.length⟩
    else st
  match x with
  | none => (.pending, st₁, [])
  | some x =>
    if x = 0 then (.ready 0, st₁, [])
    else if x < st₁.send_buffer.remaining then
      (.pending, ⟨st₁.send_buffer.advance x, st₁.data_len⟩, st₁.send_buffer.chunk.take x)
    else (.ready st₁.data_len, ⟨UdpRelayBuffer.empty, st₁.data_len⟩, st₁.send_buffer.chunk.take x)

/-- Receive half of `TrojanUdpStream`. -/
structure TrojanRecvHalf where
  recv_buffer : UdpRelayBuffer
  expecting : Option Nat
  addr_buf : MixAddrType
  deriving DecidableEq

/-- `TrojanUdpStream::try_update_addr_buf`: decode the destination address if
not yet parsed. -/
def try_update_addr_buf (st : TrojanRecvHalf) :
    RPoll (Except IOErr Unit) × TrojanRecvHalf :=
  if st.addr_buf.is_none then
    match MixAddrType.from_encoded st.recv_buffer with
    | .ok (addr, buf₂) => (.ready (.ok ()), ⟨buf₂, st.expecting, addr⟩)
    | .error .Incomplete => (.pending, st)
    | .error .Invalid => (.ready (.error .other), st)
  else (.ready (.ok ()), st)

/-- `TrojanUdpStream::try_update_expecting`: read the 2-byte big-endian length
and skip it together with the CRLF. -/
def try_update_expecting (st : TrojanRecvHalf) : RPoll Unit × TrojanRecvHalf :=
  match st.expecting with
  | none =>
    if st.recv_buffer.remaining < 2 then (.pending, st)
    else
      (.ready (),
       ⟨st.recv_buffer.advance 4,
        some (st.recv_buffer.chunk.getD 0 0 * 256 + st.recv_buffer.chunk.getD 1 0),
        st.addr_buf⟩)
  | some _ => (.ready (), st)

/-- `TrojanUdpStream::try_extract_packet`: once the address and the expected
length are known and the whole payload is resident, hand it out as one
datagram; otherwise stay pending.  The third component is the bytes appended
to the caller's output buffer. -/
def try_extract_packet (st : TrojanRecvHalf) :
    RPoll (Except IOErr MixAddrType) × TrojanRecvHalf × List Nat :=
  match try_update_addr_buf st with
  | (.pending, st₁) => (.pending, st₁, [])
  | (.ready (.error e), st₁) => (.ready (.error e), st₁, [])
  | (.ready (.ok ()), st₁) =>
    match try_update_expecting st₁ with
    | (.pending, st₂) => (.pending, st₂, [])
    | (.ready (), st₂) =>
      if st₂.expecting.getD 0 ≤ st₂.recv_buffer.remaining then
        (.ready (.ok st₂.addr_buf),
         ⟨(st₂.recv_buffer.advance (st₂.expecting.getD 0)).compact, none, .None⟩,
         st₂.recv_buffer.chunk.take (st₂.expecting.getD 0))
      else (.pending, st₂, [])

/-- State of the `CopyUdp` future (`src/utils/copy_udp.rs`). -/
structure CopyUdpState where
  buf : UdpRelayBuffer
  addr : Option MixAddrType
  amt : Nat
  deriving DecidableEq

/-- The post-write update of `CopyUdp::poll`: advance the relay buffer by the
written count and release the address only when nothing remains. -/
def copyUdpWriteUpdate (st : CopyUdpState) (x : Nat) : CopyUdpState :=
  if (st.buf.advance x).has_remaining then ⟨st.buf.advance x, st.addr, st.amt + x⟩
  else ⟨UdpRelayBuffer.empty, none, st.amt + x⟩

/-- `CopyUdp::poll`.  Reader and writer are modelled by scripts: `reads` lists
the (address, datagram) pairs successive `poll_proxy_stream_read` calls
deliver, `writes` the byte counts successive `poll_proxy_stream_write` calls
return; an exhausted script means the corresponding poll is `Pending`.  Each
fuel step runs one phase of the Rust loop body: with no address held, the read
phase (returning `Ready(amt)` on an address of `None`), otherwise the write
phase. -/
def copyUdpPoll : Nat → List (MixAddrType × List Nat) → List Nat → CopyUdpState →
    RPoll Nat × CopyUdpState × List (MixAddrType × List Nat) × List Nat
  | 0, reads, writes, st => (.pending, st, reads, writes)
  | fuel + 1, reads, writes, st =>
    match st.addr with
    | none =>
      match reads with
      | [] => (.pending, st, [], writes)
      | (a, data) :: reads₂ =>
        if a.is_none then (.ready st.amt, st, reads₂, writes)
        else copyUdpPoll fuel reads₂ writes
          ⟨st.buf.extend_from_slice data, some a, st.amt⟩
    | some _ =>
      match writes with
      | [] => (.pending, st, reads, [])
      | x :: writes₂ => copyUdpPoll fuel reads writes₂ (copyUdpWriteUpdate st x)

/-- Recv half of `Socks5UdpStream` (`src/client/utils/client_udp_stream.rs`):
the latched client address and the one-shot sender for handing it to the send
half (`none` once taken). -/
structure Socks5RecvState where
  client_udp_addr : Option Nat
  addr_tx : Option Unit
  deriving DecidableEq

/-- `Socks5UdpRecvStream::poll_read` after a successful `poll_recv_from` that
reported source address `addr` (socket addresses are opaque, modelled as
`Nat`).  `receiverAlive` tells whether the one-shot receiver still exists.
Returns (result, state, address sent over the one-shot). -/
def socks5_poll_read (st : Socks5RecvState) (addr : Nat) (receiverAlive : Bool) :
    Except IOErr Unit × Socks5RecvState × Option Nat :=
  match st.client_udp_addr with
  | none =>
    match st.addr_tx with
    | none => (.error .other, ⟨some addr, none⟩, none)
    | some _ =>
      if receiverAlive then (.ok (), ⟨some addr, none⟩, some addr)
      else (.error .other, ⟨some addr, none⟩, none)
  | some a =>
    if a ≠ addr then (.error .interrupted, st, none)
    else (.ok (), st, none)

/-- `Socks5UdpRecvStream::poll_proxy_stream_read` after its inner read
delivered the datagram `d` from the (already latched) client: a reset signal
or a datagram of fewer than 3 bytes yields `MixAddrType::None`; otherwise the
SOCKS5 `RSV/FRAG` header is skipped and the destination address decoded. -/
def socks5_poll_proxy_stream_read (resetSignaled : Bool) (buf : UdpRelayBuffer)
    (d : List Nat) : RPoll (Except IOErr MixAddrType) × UdpRelayBuffer :=
  if resetSignaled then (.ready (.ok .None), buf)
  else if d.length < 3 then (.ready (.ok .None), buf)
  else
    match MixAddrType.from_encoded ((buf.extend_from_slice d).advance 3) with
    | .ok (addr, buf₂) => (.ready (.ok addr), buf₂)
    | .error _ => (.ready (.error .other), (buf.extend_from_slice d).advance 3)

/-- `Target` of the client HTTP ingress (`src/client/http.rs`).  The host is
kept as raw bytes (the UTF-8 re-validation cannot fail on bytes that came from
a `Vec<u8>` slice and is omitted). -/
structure Target where
  is_https : Bool
  host : List Nat
  port : Nat
  cursor : Nat
  deriving DecidableEq

namespace Target

/-- `Target::new`. -/
def new : Target := ⟨false, [], 0, 0⟩

/-- `Target::set_stream_type`: `GET ` or `CONNECT ` prefix. -/
def set_stream_type (t : Target) (buf : List Nat) : Except ParserError Target :=
  if buf.length < 4 then .error .Incomplete
  else if buf.take 4 = [71, 69, 84, 32] then
    .ok { t with is_https := false, cursor := 4 }
  else if buf.length < 8 then .error .Incomplete
  else if buf.take 8 = [67, 79, 78, 78, 69, 67, 84, 32] then
    .ok { t with is_https := true, cursor := 8 }
  else .error .Invalid

/-- Byte-wise ASCII lowercasing, as `to_ascii_lowercase`. -/
def toLowerByte (b : Nat) : Nat := if 65 ≤ b ∧ b ≤ 90 then b + 32 else b

/-- The `while … == b' '` loop of `set_host`: first non-space index. -/
def skipSpaces (buf : List Nat) (i : Nat) : Nat :=
  i + ((buf.drop i).takeWhile (fun b => b == 32)).length

/-- The scan for the end of the host part: first space or slash at or after
`start`. -/
def hostEnd (buf : List Nat) (start : Nat) : Nat :=
  start + ((buf.drop start).takeWhile (fun b => b != 32 && b != 47)).length

/-- The reverse scan of `set_host` for a colon in `[start, e)`; `e` when there
is none. -/
def lastColonIdx (buf : List Nat) (start e : Nat) : Nat :=
  match ((List.range' start (e - start)).filter (fun i => buf.getD i 0 == 58)).getLast? with
  | some i => i
  | none => e

/-- The digit loop of `set_host`, folding from the accumulated port.  As in
the source, it runs over `buf[port_idx..end]` — including the byte at
`port_idx` itself. -/
def parsePortDigits (port : Nat) : List Nat → Except ParserError Nat
  | [] => .ok port
  | d :: ds =>
    if 48 ≤ d ∧ d ≤ 57 then parsePortDigits (port * 10 + (d - 48)) ds
    else .error .Invalid

/-- The part of `Target::set_host` after the `http://` handling. -/
def set_host_core (t : Target) (buf : List Nat) : Except ParserError Target :=
  let e := hostEnd buf t.cursor
  let pidx := lastColonIdx buf t.cursor e
  if e = buf.length then .error .Incomplete
  else if pidx + 1 = e then .error .Invalid
  else if pidx = e then
    if !t.is_https then
      .ok ⟨t.is_https, (buf.drop t.cursor).take (pidx - t.cursor), 80, t.cursor⟩
    else .error .Invalid
  else
    match parsePortDigits t.port ((buf.drop pidx).take (e - pidx)) with
    | .error er => .error er
    | .ok p => .ok ⟨t.is_https, (buf.drop t.cursor).take (pidx - t.cursor), p, t.cursor⟩

/-- `Target::set_host`.  Cursor mutations that the Rust code leaves behind on
an error path are not observable within a single call and are not threaded. -/
def set_host (t : Target) (buf : List Nat) : Except ParserError Target :=
  if !t.is_https then
    if skipSpaces buf t.cursor + 7 < buf.length then
      if ((buf.drop (skipSpaces buf t.cursor)).take 7).map toLowerByte
          = [104, 116, 116, 112, 58, 47, 47] then
        set_host_core { t with cursor := skipSpaces buf t.cursor + 7 } buf
      else set_host_core { t with cursor := skipSpaces buf t.cursor } buf
    else .error .Incomplete
  else set_host_core { t with cursor := skipSpaces buf t.cursor } buf

/-- `Target::parse`: stream type, then host, then the `\r\n\r\n` integrity
check; on a failed integrity check the buffer is truncated to its last 4
bytes and `Incomplete` returned. -/
def parse (t : Target) (buf : List Nat) : Except ParserError Target × List Nat :=
  match (if t.cursor = 0 then t.set_stream_type buf else .ok t) with
  | .error e => (.error e, buf)
  | .ok t₁ =>
    match (if t₁.host.length = 0 then t₁.set_host buf else .ok t₁) with
    | .error e => (.error e, buf)
    | .ok t₂ =>
      if buf.drop (buf.length - 4) = [13, 10, 13, 10] then (.ok t₂, buf)
      else (.error .Incomplete, buf.drop (buf.length - 4))

end Target

/-- The bytes of `CONNECT example.com:443 HTTP/1.1\r\n\r\n`. -/
def connectRequestBytes : List Nat :=
  [67, 79, 78, 78, 69, 67, 84, 32,
   101, 120, 97, 109, 112, 108, 101, 46, 99, 111, 109, 58, 52, 52, 51, 32,
   72, 84, 84, 80, 47, 49, 46, 49, 13, 10, 13, 10]

/-- The bytes of `GET http://example.com/ HTTP/1.1\r\n\r\n`. -/
def getRequestBytes : List Nat :=
  [71, 69, 84, 32] ++
  [104, 116, 116, 112, 58, 47, 47,
   101, 120, 97, 109, 112, 108, 101, 46, 99, 111, 109, 47, 32,
   72, 84, 84, 80, 47, 49, 46, 49, 13, 10, 13, 10]

/-- `witness` aborts exactly in the `BothDirections` state. -/
theorem Seen0x17.witness_eq_none_iff (s : Seen0x17) (d : Direction) :
    s.witness d = none ↔ s = .BothDirections := by
  cases s <;> cases d <;> simp [Seen0x17.witness]

/-- `witness` can only produce `FromInbound` for the inbound direction. -/
theorem Seen0x17.witness_fromInbound {s : Seen0x17} {d : Direction}
    (h : s.witness d = some .FromInbound) : d = .Inbound := by
  cases s <;> cases d <;> simp_all [Seen0x17.witness]

/-- On success, `check_tls_packet` returns the record-type byte, advances the
cursor by at least the 5-byte header, and stays within the data. -/
theorem check_tls_packet_ok {b b₂ : TlsRelayBuffer} {t : Nat}
    (h : b.check_tls_packet = (.ok t, b₂)) :
    b₂.inner = b.inner ∧ b.cursor + 5 ≤ b₂.cursor ∧ b₂.cursor ≤ b.inner.length ∧
    t = b.inner.getD b.cursor 0 := by
  unfold TlsRelayBuffer.check_tls_packet at h
  split at h
  · simp at h
  · split at h
    · simp at h
    · simp only [Prod.mk.injEq, Except.ok.injEq] at h
      obtain ⟨rfl, rfl⟩ := h
      refine ⟨rfl, ?_, ?_, rfl⟩
      · change b.cursor + 5 ≤ b.cursor + 5 + _
        omega
      · change b.cursor + 5 + _ ≤ b.inner.length
        omega

/-- On failure, `check_tls_packet` reports `Incomplete`; it either leaves the
buffer untouched (header incomplete) or has already pushed the cursor past the
end of the data (record body incomplete). -/
theorem check_tls_packet_err {b b₂ : TlsRelayBuffer} {e : ParserError}
    (h : b.check_tls_packet = (.error e, b₂)) :
    e = .Incomplete ∧ b₂.inner = b.inner ∧ b.cursor ≤ b₂.cursor ∧
    b.inner.length < b₂.cursor + 5 ∧ (b₂ = b ∨ b.inner.length < b₂.cursor) := by
  unfold TlsRelayBuffer.check_tls_packet at h
  split at h
  · simp only [Prod.mk.injEq, Except.error.injEq] at h
    obtain ⟨rfl, rfl⟩ := h
    exact ⟨rfl, rfl, Nat.le_refl _, by omega, Or.inl rfl⟩
  · split at h
    · simp only [Prod.mk.injEq, Except.error.injEq] at h
      obtain ⟨rfl, rfl⟩ := h
      refine ⟨rfl, rfl, ?_, ?_, Or.inr ?_⟩
      · change b.cursor ≤ b.cursor + 5 + _
        omega
      · change b.inner.length < b.cursor + 5 + _ + 5
        omega
      · change b.inner.length < b.cursor + 5 + _
        omega
    · simp at h

/-- C4: `check_client_hello` succeeds exactly on a buffer whose first 3 bytes
are `16 03 01` and which consists of exactly one record of the declared
length; it is `Incomplete` exactly below 5 bytes, and `Invalid` in every other
case (wrong prefix, trailing bytes, or a buffer shorter than the declared
record). -/
theorem check_client_hello_characterization (b : TlsRelayBuffer) :
    ((b.check_client_hello).1 = .ok () ↔
      b.inner.take 3 = [0x16, 0x03, 0x01] ∧
      b.inner.length = 5 + extract_len (b.inner.drop 3)) ∧
    ((b.check_client_hello).1 = .error .Incomplete ↔ b.inner.length < 5) ∧
    ((b.check_client_hello).1 = .error .Invalid ↔ 5 ≤ b.inner.length ∧
      (b.inner.take 3 ≠ [0x16, 0x03, 0x01] ∨
       b.inner.length ≠ 5 + extract_len (b.inner.drop 3))) := by
  unfold TlsRelayBuffer.check_client_hello
  split
  · rename_i hlen
    refine ⟨?_, ?_, ?_⟩ <;> simp
    · omega
    · omega
    · omega
  · split
    · rename_i hlen hpre
      refine ⟨?_, ?_, ?_⟩ <;> simp_all <;> omega
    · split
      · rename_i hlen hpre hone
        refine ⟨?_, ?_, ?_⟩ <;> simp_all <;> omega
      · rename_i hlen hpre hone
        refine ⟨?_, ?_, ?_⟩ <;> simp_all <;> omega

/-- C2 (counterexample): a 5-byte buffer whose header declares a 10-byte body
makes `check_tls_packet` return `Incomplete` with the cursor at 15, beyond the
5 bytes of data — the claimed invariant `cursor ≤ len` fails on an
`Incomplete` return. -/
theorem check_tls_packet_incomplete_cursor_overrun :
    ((TlsRelayBuffer.new.appendBytes [0x17, 0x03, 0x03, 0x00, 0x0a]).check_tls_packet).1
        = .error .Incomplete ∧
    ((TlsRelayBuffer.new.appendBytes [0x17, 0x03, 0x03, 0x00, 0x0a]).check_tls_packet).2.len
        < ((TlsRelayBuffer.new.appendBytes [0x17, 0x03, 0x03, 0x00, 0x0a]).check_tls_packet).2.cursor := by
  exact ⟨rfl, by decide⟩

/-- C2 (amended): after `reset` both length and cursor are 0, and the
invariant `cursor ≤ len` is preserved by appends, by `pop_checked_packets`,
and by `check_client_hello` and `check_tls_packet` whenever they return `Ok` —
but not when a declared record length extends past the buffered bytes (see the
counterexample). -/
theorem tls_relay_buffer_cursor_invariant :
    (∀ b : TlsRelayBuffer, (b.reset).cursor = 0 ∧ (b.reset).len = 0) ∧
    (∀ (b : TlsRelayBuffer) (s : List Nat),
      b.cursor ≤ b.len → (b.appendBytes s).cursor ≤ (b.appendBytes s).len) ∧
    (∀ b : TlsRelayBuffer,
      b.cursor ≤ b.len → (b.pop_checked_packets).cursor ≤ (b.pop_checked_packets).len) ∧
    (∀ (b b₂ : TlsRelayBuffer) (u : Unit),
      b.check_client_hello = (.ok u, b₂) → b₂.cursor ≤ b₂.len) ∧
    (∀ (b b₂ : TlsRelayBuffer) (t : Nat),
      b.check_tls_packet = (.ok t, b₂) → b₂.cursor ≤ b₂.len) := by
  refine ⟨fun b => ⟨rfl, rfl⟩, ?_, ?_, ?_, ?_⟩
  · intro b s h
    simp only [TlsRelayBuffer.appendBytes, TlsRelayBuffer.len, List.length_append] at *
    omega
  · intro b h
    simp only [TlsRelayBuffer.pop_checked_packets, TlsRelayBuffer.len, List.length_take,
      List.length_drop] at *
    omega
  · intro b b₂ u h
    unfold TlsRelayBuffer.check_client_hello at h
    split at h
    · simp at h
    · split at h
      · simp at h
      · split at h
        · simp at h
        · simp only [Prod.mk.injEq] at h
          obtain ⟨-, rfl⟩ := h
          rename_i hone
          simp only [ne_eq, not_not] at hone
          change 5 + _ ≤ b.inner.length
          omega
  · intro b b₂ t h
    obtain ⟨h₁, h₂, h₃, -⟩ := check_tls_packet_ok h
    simp only [TlsRelayBuffer.len]
    rw [h₁]
    omega

/-- C2 (witness): the amended invariant applied to a concrete buffer. -/
theorem tls_relay_buffer_cursor_invariant_witness :
    ((⟨[0x16, 0x03], 1⟩ : TlsRelayBuffer).pop_checked_packets).cursor
      ≤ ((⟨[0x16, 0x03], 1⟩ : TlsRelayBuffer).pop_checked_packets).len :=
  tls_relay_buffer_cursor_invariant.2.2.1 ⟨[0x16, 0x03], 1⟩ (by decide)

/-- C3: witnessing a `0x17` record while `seen_0x17` is already
`BothDirections` runs into the `unreachable!()` of `Seen0x17::witness`: the
scan aborts instead of producing a structured result. -/
theorem find_key_packets_panics_after_both_directions :
    (find_key_packets ⟨[0x17, 0x03, 0x03, 0x00, 0x00], 0⟩
        .BothDirections .Inbound).1 = .panicked := by
  rw [find_key_packets.eq_def]
  rfl

/-- C1 (counterexample): from the reachable state `seen_0x17 = FromOutbound`,
two inbound application-data records make the first witness produce
`BothDirections` and the second hit `unreachable!()`: the non-triggering
`0x17` record is not advanced past as claimed — the process aborts. -/
theorem find_key_packets_nontriggering_0x17_panics :
    (find_key_packets ⟨[0x17, 0x03, 0x03, 0x00, 0x00, 0x17, 0x03, 0x03, 0x00, 0x00], 0⟩
        .FromOutbound .Inbound).1 = .panicked := by
  rw [find_key_packets.eq_def]
  show (find_key_packets ⟨[0x17, 0x03, 0x03, 0x00, 0x00, 0x17, 0x03, 0x03, 0x00, 0x00], 5⟩
      .BothDirections .Inbound).1 = .panicked
  rw [find_key_packets.eq_def]
  rfl

/-- Branch lemma for `find_key_packets`: too few bytes for a type byte. -/
theorem fkp_step_guard {b : TlsRelayBuffer} (s : Seen0x17) (d : Direction)
    (h : b.inner.length < b.cursor + 1) :
    find_key_packets b s d = (.err .Incomplete, b, s) := by
  rw [find_key_packets.eq_def, dif_pos h]

/-- Branch lemma: a `0x17` record witnessed in `BothDirections` aborts. -/
theorem fkp_step_0x17_panic {b : TlsRelayBuffer} {s : Seen0x17} {d : Direction}
    (h : ¬b.inner.length < b.cursor + 1) (hb : b.inner.getD b.cursor 0 = 0x17)
    (hw : s.witness d = none) :
    find_key_packets b s d = (.panicked, b, s) := by
  rw [find_key_packets.eq_def, dif_neg h, if_pos hb]
  split
  · rfl
  · simp_all

/-- Branch lemma: a `0x17` record whose witness yields `FromInbound` returns
`Tls12` at once. -/
theorem fkp_step_0x17_tls12 {b : TlsRelayBuffer} {s : Seen0x17} {d : Direction}
    (h : ¬b.inner.length < b.cursor + 1) (hb : b.inner.getD b.cursor 0 = 0x17)
    (hw : s.witness d = some .FromInbound) :
    find_key_packets b s d = (.ok .Tls12, b, .FromInbound) := by
  rw [find_key_packets.eq_def, dif_neg h, if_pos hb]
  split
  · simp_all
  · rename_i s₂ hw₂
    rw [hw] at hw₂
    obtain rfl : s₂ = .FromInbound := by simpa using hw₂.symm
    rw [if_pos rfl]

/-- Branch lemma: a non-triggering `0x17` record is skipped. -/
theorem fkp_step_0x17_rec {b b₂ : TlsRelayBuffer} {s s₂ : Seen0x17} {d : Direction} {t : Nat}
    (h : ¬b.inner.length < b.cursor + 1) (hb : b.inner.getD b.cursor 0 = 0x17)
    (hw : s.witness d = some s₂) (hs : s₂ ≠ .FromInbound)
    (hc : b.check_tls_packet = (.ok t, b₂)) :
    find_key_packets b s d = find_key_packets b₂ s₂ d := by
  rw [find_key_packets.eq_def, dif_neg h, if_pos hb]
  split
  · simp_all
  · rename_i s₃ hw₂
    rw [hw] at hw₂
    obtain rfl : s₃ = s₂ := by simpa using hw₂.symm
    rw [if_neg hs]
    split
    · rename_i t₂ b₃ hc₂
      rw [hc] at hc₂
      obtain ⟨-, rfl⟩ : t = t₂ ∧ b₂ = b₃ := by simpa using hc₂
      rfl
    · rename_i e₂ b₃ hc₂
      rw [hc] at hc₂
      simp at hc₂

/-- Branch lemma: a non-triggering `0x17` record whose skip fails propagates
the parser error together with the mutated state. -/
theorem fkp_step_0x17_err {b b₂ : TlsRelayBuffer} {s s₂ : Seen0x17} {d : Direction}
    {e : ParserError}
    (h : ¬b.inner.length < b.cursor + 1) (hb : b.inner.getD b.cursor 0 = 0x17)
    (hw : s.witness d = some s₂) (hs : s₂ ≠ .FromInbound)
    (hc : b.check_tls_packet = (.error e, b₂)) :
    find_key_packets b s d = (.err e, b₂, s₂) := by
  rw [find_key_packets.eq_def, dif_neg h, if_pos hb]
  split
  · simp_all
  · rename_i s₃ hw₂
    rw [hw] at hw₂
    obtain rfl : s₃ = s₂ := by simpa using hw₂.symm
    rw [if_neg hs]
    split
    · rename_i t₂ b₃ hc₂
      rw [hc] at hc₂
      simp at hc₂
    · rename_i e₂ b₃ hc₂
      rw [hc] at hc₂
      obtain ⟨rfl, rfl⟩ : e = e₂ ∧ b₂ = b₃ := by simpa using hc₂
      rfl

/-- Branch lemma: a `0x14` record in state `FromOutbound` returns `Tls13`. -/
theorem fkp_step_0x14_tls13 {b : TlsRelayBuffer} {d : Direction}
    (h : ¬b.inner.length < b.cursor + 1) (hb17 : b.inner.getD b.cursor 0 ≠ 0x17)
    (hb : b.inner.getD b.cursor 0 = 0x14) :
    find_key_packets b .FromOutbound d = (.ok .Tls13, b, .FromOutbound) := by
  rw [find_key_packets.eq_def, dif_neg h, if_neg hb17, if_pos hb, if_pos rfl]

/-- Branch lemma: a `0x14` record in any other state is skipped. -/
theorem fkp_step_0x14_rec {b b₂ : TlsRelayBuffer} {s : Seen0x17} {d : Direction} {t : Nat}
    (h : ¬b.inner.length < b.cursor + 1) (hb17 : b.inner.getD b.cursor 0 ≠ 0x17)
    (hb : b.inner.getD b.cursor 0 = 0x14) (hs : s ≠ .FromOutbound)
    (hc : b.check_tls_packet = (.ok t, b₂)) :
    find_key_packets b s d = find_key_packets b₂ s d := by
  rw [find_key_packets.eq_def, dif_neg h, if_neg hb17, if_pos hb, if_neg hs]
  split
  · rename_i t₂ b₃ hc₂
    rw [hc] at hc₂
    obtain ⟨-, rfl⟩ : t = t₂ ∧ b₂ = b₃ := by simpa using hc₂
    rfl
  · rename_i e₂ b₃ hc₂
    rw [hc] at hc₂
    simp at hc₂

/-- Branch lemma: the failing skip of a `0x14` record. -/
theorem fkp_step_0x14_err {b b₂ : TlsRelayBuffer} {s : Seen0x17} {d : Direction}
    {e : ParserError}
    (h : ¬b.inner.length < b.cursor + 1) (hb17 : b.inner.getD b.cursor 0 ≠ 0x17)
    (hb : b.inner.getD b.cursor 0 = 0x14) (hs : s ≠ .FromOutbound)
    (hc : b.check_tls_packet = (.error e, b₂)) :
    find_key_packets b s d = (.err e, b₂, s) := by
  rw [find_key_packets.eq_def, dif_neg h, if_neg hb17, if_pos hb, if_neg hs]
  split
  · rename_i t₂ b₃ hc₂
    rw [hc] at hc₂
    simp at hc₂
  · rename_i e₂ b₃ hc₂
    rw [hc] at hc₂
    obtain ⟨rfl, rfl⟩ : e = e₂ ∧ b₂ = b₃ := by simpa using hc₂
    rfl

/-- Branch lemma: a `0xff` byte returns `Tls12` at once. -/
theorem fkp_step_0xff {b : TlsRelayBuffer} {s : Seen0x17} {d : Direction}
    (h : ¬b.inner.length < b.cursor + 1) (hb17 : b.inner.getD b.cursor 0 ≠ 0x17)
    (hb14 : b.inner.getD b.cursor 0 ≠ 0x14) (hb : b.inner.getD b.cursor 0 = 0xff) :
    find_key_packets b s d = (.ok .Tls12, b, s) := by
  rw [find_key_packets.eq_def, dif_neg h, if_neg hb17, if_neg hb14, if_pos hb]

/-- Branch lemma: `0x15` and `0x16` records are skipped. -/
theorem fkp_step_1516_rec {b b₂ : TlsRelayBuffer} {s : Seen0x17} {d : Direction} {t : Nat}
    (h : ¬b.inner.length < b.cursor + 1) (hb17 : b.inner.getD b.cursor 0 ≠ 0x17)
    (hb14 : b.inner.getD b.cursor 0 ≠ 0x14) (hbff : b.inner.getD b.cursor 0 ≠ 0xff)
    (hb : b.inner.getD b.cursor 0 = 0x15 ∨ b.inner.getD b.cursor 0 = 0x16)
    (hc : b.check_tls_packet = (.ok t, b₂)) :
    find_key_packets b s d = find_key_packets b₂ s d := by
  rw [find_key_packets.eq_def, dif_neg h, if_neg hb17, if_neg hb14, if_neg hbff, if_pos hb]
  split
  · rename_i t₂ b₃ hc₂
    rw [hc] at hc₂
    obtain ⟨-, rfl⟩ : t = t₂ ∧ b₂ = b₃ := by simpa using hc₂
    rfl
  · rename_i e₂ b₃ hc₂
    rw [hc] at hc₂
    simp at hc₂

/-- Branch lemma: the failing skip of a `0x15`/`0x16` record. -/
theorem fkp_step_1516_err {b b₂ : TlsRelayBuffer} {s : Seen0x17} {d : Direction}
    {e : ParserError}
    (h : ¬b.inner.length < b.cursor + 1) (hb17 : b.inner.getD b.cursor 0 ≠ 0x17)
    (hb14 : b.inner.getD b.cursor 0 ≠ 0x14) (hbff : b.inner.getD b.cursor 0 ≠ 0xff)
    (hb : b.inner.getD b.cursor 0 = 0x15 ∨ b.inner.getD b.cursor 0 = 0x16)
    (hc : b.check_tls_packet = (.error e, b₂)) :
    find_key_packets b s d = (.err e, b₂, s) := by
  rw [find_key_packets.eq_def, dif_neg h, if_neg hb17, if_neg hb14, if_neg hbff, if_pos hb]
  split
  · rename_i t₂ b₃ hc₂
    rw [hc] at hc₂
    simp at hc₂
  · rename_i e₂ b₃ hc₂
    rw [hc] at hc₂
    obtain ⟨rfl, rfl⟩ : e = e₂ ∧ b₂ = b₃ := by simpa using hc₂
    rfl

/-- Branch lemma: every other type byte fails with `Invalid`. -/
theorem fkp_step_invalid {b : TlsRelayBuffer} {s : Seen0x17} {d : Direction}
    (h : ¬b.inner.length < b.cursor + 1) (hb17 : b.inner.getD b.cursor 0 ≠ 0x17)
    (hb14 : b.inner.getD b.cursor 0 ≠ 0x14) (hbff : b.inner.getD b.cursor 0 ≠ 0xff)
    (hb : ¬(b.inner.getD b.cursor 0 = 0x15 ∨ b.inner.getD b.cursor 0 = 0x16)) :
    find_key_packets b s d = (.err .Invalid, b, s) := by
  rw [find_key_packets.eq_def, dif_neg h, if_neg hb17, if_neg hb14, if_neg hbff, if_neg hb]


/-- C1 (amended): the scan stops exactly as the claim describes, characterized
by the final state it returns — `Tls13` exactly on a `0x14` record met while
`seen_0x17` is `FromOutbound`; `Tls12` exactly on a `0xff` byte or on a `0x17`
record witnessed from `Inbound` with the state becoming `FromInbound`;
`Invalid` exactly on any other record-type byte; records of type `0x15`,
`0x16` and non-triggering `0x17`/`0x14` are advanced past (the cursor only
moves forward over unchanged data) — except that witnessing a `0x17` in state
`BothDirections` aborts through `unreachable!()` instead of advancing, and an
`Incomplete` return means fewer bytes than a full header remain before the
(possibly overrun) cursor. -/
theorem find_key_packets_dispatch_characterization (b : TlsRelayBuffer) (s : Seen0x17) (d : Direction) :
    ∀ r b₂ s₂, find_key_packets b s d = (r, b₂, s₂) →
      b₂.inner = b.inner ∧ b.cursor ≤ b₂.cursor ∧
      (r = .ok .Tls13 ↔
        b₂.cursor < b.inner.length ∧ b.inner.getD b₂.cursor 0 = 0x14 ∧ s₂ = .FromOutbound) ∧
      (r = .ok .Tls12 ↔
        b₂.cursor < b.inner.length ∧ (b.inner.getD b₂.cursor 0 = 0xff ∨
          (b.inner.getD b₂.cursor 0 = 0x17 ∧ d = .Inbound ∧ s₂ = .FromInbound))) ∧
      (r = .err .Invalid ↔
        b₂.cursor < b.inner.length ∧ b.inner.getD b₂.cursor 0 ≠ 0x14 ∧
        b.inner.getD b₂.cursor 0 ≠ 0x15 ∧ b.inner.getD b₂.cursor 0 ≠ 0x16 ∧
        b.inner.getD b₂.cursor 0 ≠ 0x17 ∧ b.inner.getD b₂.cursor 0 ≠ 0xff) ∧
      (r = .panicked → b₂.cursor < b.inner.length ∧ b.inner.getD b₂.cursor 0 = 0x17 ∧
        s₂ = .BothDirections) ∧
      (r = .err .Incomplete → b.inner.length < b₂.cursor + 5) := by
  induction b, s, d using find_key_packets.induct with
  | case1 b s d h =>
    rw [fkp_step_guard s d h]
    intro r b₂ s₂ heq
    simp only [Prod.mk.injEq] at heq
    obtain ⟨rfl, rfl, rfl⟩ := heq
    refine ⟨rfl, Nat.le_refl _, ?_, ?_, ?_, ?_, ?_⟩
    · exact iff_of_false (by simp) (fun hx => absurd hx.1 (by omega))
    · exact iff_of_false (by simp) (fun hx => absurd hx.1 (by omega))
    · exact iff_of_false (by simp) (fun hx => absurd hx.1 (by omega))
    · intro hx; exact absurd hx (by simp)
    · intro _; omega
  | case2 b s d h hb hw =>
    rw [fkp_step_0x17_panic h hb hw]
    intro r b₂ s₂ heq
    simp only [Prod.mk.injEq] at heq
    obtain ⟨rfl, rfl, rfl⟩ := heq
    have hBoth : s = .BothDirections := (Seen0x17.witness_eq_none_iff s d).mp hw
    refine ⟨rfl, Nat.le_refl _, ?_, ?_, ?_, ?_, ?_⟩
    · exact iff_of_false (by simp) (fun hx => by rw [hb] at hx; omega)
    · refine iff_of_false (by simp) ?_
      rintro ⟨-, hx | ⟨-, -, hFI⟩⟩
      · rw [hb] at hx; omega
      · rw [hBoth] at hFI; exact absurd hFI (by simp)
    · exact iff_of_false (by simp) (fun hx => absurd hb hx.2.2.2.2.1)
    · intro _; exact ⟨by omega, hb, hBoth⟩
    · intro hx; exact absurd hx (by simp)
  | case3 b s d h hb hw =>
    rw [fkp_step_0x17_tls12 h hb hw]
    intro r b₂ s₂ heq
    simp only [Prod.mk.injEq] at heq
    obtain ⟨rfl, rfl, rfl⟩ := heq
    refine ⟨rfl, Nat.le_refl _, ?_, ?_, ?_, ?_, ?_⟩
    · exact iff_of_false (by simp) (fun hx => by rw [hb] at hx; omega)
    · exact iff_of_true rfl ⟨by omega, Or.inr ⟨hb, Seen0x17.witness_fromInbound hw, rfl⟩⟩
    · exact iff_of_false (by simp) (fun hx => absurd hb hx.2.2.2.2.1)
    · intro hx; exact absurd hx (by simp)
    · intro hx; exact absurd hx (by simp)
  | case4 b s d h hb s₂ hw hs t b₂ hc IH =>
    rw [fkp_step_0x17_rec h hb hw hs hc]
    intro r b₃ s₃ heq
    obtain ⟨hI1, hI2, hI3, hI4, hI5, hI6, hI7⟩ := IH r b₃ s₃ heq
    obtain ⟨hcin, hcc, hcl, -⟩ := check_tls_packet_ok hc
    rw [hcin] at hI1 hI3 hI4 hI5 hI6 hI7
    exact ⟨hI1, by omega, hI3, hI4, hI5, hI6, hI7⟩
  | case5 b s d h hb s₂ hw hs e b₂ hc =>
    rw [fkp_step_0x17_err h hb hw hs hc]
    intro r b₃ s₃ heq
    simp only [Prod.mk.injEq] at heq
    obtain ⟨rfl, rfl, rfl⟩ := heq
    obtain ⟨rfl, hein, hecc, hel, hdisj⟩ := check_tls_packet_err hc
    refine ⟨hein, hecc, ?_, ?_, ?_, ?_, ?_⟩
    · refine iff_of_false (by simp) ?_
      rintro ⟨hlt, hb2, -⟩
      rcases hdisj with rfl | hover
      · rw [hb] at hb2; omega
      · omega
    · refine iff_of_false (by simp) ?_
      rintro ⟨hlt, hx | ⟨hb2, -, hFI⟩⟩
      · rcases hdisj with rfl | hover
        · rw [hb] at hx; omega
        · omega
      · rcases hdisj with rfl | hover
        · exact hs hFI
        · omega
    · refine iff_of_false (by simp) ?_
      rintro ⟨hlt, -, -, -, h17, -⟩
      rcases hdisj with rfl | hover
      · exact h17 hb
      · omega
    · intro hx; exact absurd hx (by simp)
    · intro _; omega
  | case6 b d h hb17 hb =>
    rw [fkp_step_0x14_tls13 h hb17 hb]
    intro r b₂ s₂ heq
    simp only [Prod.mk.injEq] at heq
    obtain ⟨rfl, rfl, rfl⟩ := heq
    refine ⟨rfl, Nat.le_refl _, ?_, ?_, ?_, ?_, ?_⟩
    · exact iff_of_true rfl ⟨by omega, hb, rfl⟩
    · refine iff_of_false (by simp) ?_
      rintro ⟨-, hx | ⟨hx, -, -⟩⟩ <;> rw [hb] at hx <;> omega
    · exact iff_of_false (by simp) (fun hx => absurd hb hx.2.1)
    · intro hx; exact absurd hx (by simp)
    · intro hx; exact absurd hx (by simp)
  | case7 b s d h hb17 hb hs t b₂ hc IH =>
    rw [fkp_step_0x14_rec h hb17 hb hs hc]
    intro r b₃ s₃ heq
    obtain ⟨hI1, hI2, hI3, hI4, hI5, hI6, hI7⟩ := IH r b₃ s₃ heq
    obtain ⟨hcin, hcc, hcl, -⟩ := check_tls_packet_ok hc
    rw [hcin] at hI1 hI3 hI4 hI5 hI6 hI7
    exact ⟨hI1, by omega, hI3, hI4, hI5, hI6, hI7⟩
  | case8 b s d h hb17 hb hs e b₂ hc =>
    rw [fkp_step_0x14_err h hb17 hb hs hc]
    intro r b₃ s₃ heq
    simp only [Prod.mk.injEq] at heq
    obtain ⟨rfl, rfl, rfl⟩ := heq
    obtain ⟨rfl, hein, hecc, hel, hdisj⟩ := check_tls_packet_err hc
    refine ⟨hein, hecc, ?_, ?_, ?_, ?_, ?_⟩
    · refine iff_of_false (by simp) ?_
      rintro ⟨hlt, -, hFO⟩
      rcases hdisj with rfl | hover
      · exact hs hFO
      · omega
    · refine iff_of_false (by simp) ?_
      rintro ⟨hlt, hx | ⟨hx, -, -⟩⟩ <;> rcases hdisj with rfl | hover
      · rw [hb] at hx; omega
      · omega
      · rw [hb] at hx; omega
      · omega
    · refine iff_of_false (by simp) ?_
      rintro ⟨hlt, h14, -⟩
      rcases hdisj with rfl | hover
      · exact h14 hb
      · omega
    · intro hx; exact absurd hx (by simp)
    · intro _; omega
  | case9 b s d h hb17 hb14 hb =>
    rw [fkp_step_0xff h hb17 hb14 hb]
    intro r b₂ s₂ heq
    simp only [Prod.mk.injEq] at heq
    obtain ⟨rfl, rfl, rfl⟩ := heq
    refine ⟨rfl, Nat.le_refl _, ?_, ?_, ?_, ?_, ?_⟩
    · exact iff_of_false (by simp) (fun hx => by rw [hb] at hx; omega)
    · exact iff_of_true rfl ⟨by omega, Or.inl hb⟩
    · exact iff_of_false (by simp) (fun hx => absurd hb hx.2.2.2.2.2)
    · intro hx; exact absurd hx (by simp)
    · intro hx; exact absurd hx (by simp)
  | case10 b s d h hb17 hb14 hbff hb t b₂ hc IH =>
    rw [fkp_step_1516_rec h hb17 hb14 hbff hb hc]
    intro r b₃ s₃ heq
    obtain ⟨hI1, hI2, hI3, hI4, hI5, hI6, hI7⟩ := IH r b₃ s₃ heq
    obtain ⟨hcin, hcc, hcl, -⟩ := check_tls_packet_ok hc
    rw [hcin] at hI1 hI3 hI4 hI5 hI6 hI7
    exact ⟨hI1, by omega, hI3, hI4, hI5, hI6, hI7⟩
  | case11 b s d h hb17 hb14 hbff hb e b₂ hc =>
    rw [fkp_step_1516_err h hb17 hb14 hbff hb hc]
    intro r b₃ s₃ heq
    simp only [Prod.mk.injEq] at heq
    obtain ⟨rfl, rfl, rfl⟩ := heq
    obtain ⟨rfl, hein, hecc, hel, hdisj⟩ := check_tls_packet_err hc
    refine ⟨hein, hecc, ?_, ?_, ?_, ?_, ?_⟩
    · refine iff_of_false (by simp) ?_
      rintro ⟨hlt, hb2, -⟩
      rcases hdisj with rfl | hover
      · exact hb14 hb2
      · omega
    · refine iff_of_false (by simp) ?_
      rintro ⟨hlt, hx | ⟨hx, -, -⟩⟩ <;> rcases hdisj with rfl | hover
      · exact hbff hx
      · omega
      · exact hb17 hx
      · omega
    · refine iff_of_false (by simp) ?_
      rintro ⟨hlt, -, h15, h16, -, -⟩
      rcases hdisj with rfl | hover
      · rcases hb with hx | hx
        · exact h15 hx
        · exact h16 hx
      · omega
    · intro hx; exact absurd hx (by simp)
    · intro _; omega
  | case12 b s d h hb17 hb14 hbff hb =>
    rw [fkp_step_invalid h hb17 hb14 hbff hb]
    intro r b₂ s₂ heq
    simp only [Prod.mk.injEq] at heq
    obtain ⟨rfl, rfl, rfl⟩ := heq
    push_neg at hb
    refine ⟨rfl, Nat.le_refl _, ?_, ?_, ?_, ?_, ?_⟩
    · exact iff_of_false (by simp) (fun hx => absurd hx.2.1 hb14)
    · refine iff_of_false (by simp) ?_
      rintro ⟨-, hx | ⟨hx, -, -⟩⟩
      · exact hbff hx
      · exact hb17 hx
    · exact iff_of_true rfl ⟨by omega, hb14, hb.1, hb.2, hb17, hbff⟩
    · intro hx; exact absurd hx (by simp)
    · intro hx; exact absurd hx (by simp)

/-- C1 (witness): the characterization applied to a concrete one-record
buffer of unknown type `0x18`. -/
theorem find_key_packets_dispatch_characterization_witness :
    ([0x18, 0x03, 0x03, 0x00, 0x00].getD 0 0 ≠ 0x14) := by
  have h := find_key_packets_dispatch_characterization
      ⟨[0x18, 0x03, 0x03, 0x00, 0x00], 0⟩ .None .Inbound
      (.err .Invalid) ⟨[0x18, 0x03, 0x03, 0x00, 0x00], 0⟩ .None
      (by rw [find_key_packets.eq_def]; rfl)
  exact (h.2.2.2.2.1.mp rfl).2.1

/-- C9: the parser rejects `CONNECT example.com:443 HTTP/1.1` with `Invalid`
(the digit loop of `set_host` starts at the colon byte itself, which is not a
digit), while a plain `GET http://example.com/` request parses with the port
defaulted to 80 — so the 200 reply for CONNECT is never reached. -/
theorem connect_with_explicit_port_is_rejected :
    (Target.parse Target.new connectRequestBytes).1 = .error .Invalid ∧
    (Target.parse Target.new getRequestBytes).1
      = .ok ⟨false, [101, 120, 97, 109, 112, 108, 101, 46, 99, 111, 109], 80, 11⟩ := by
  exact ⟨rfl, rfl⟩

/-- C8: the first received packet latches the sender address and hands it
over the one-shot channel; every later packet from a different address yields
`Interrupted`, packets from the latched address succeed, and the latch never
changes. -/
theorem socks5_recv_latch_characterization :
    (∀ addr : Nat, socks5_poll_read ⟨none, some ()⟩ addr true
        = (.ok (), ⟨some addr, none⟩, some addr)) ∧
    (∀ (a addr : Nat) (tx : Option Unit), addr ≠ a →
        socks5_poll_read ⟨some a, tx⟩ addr true
          = (.error .interrupted, ⟨some a, tx⟩, none)) ∧
    (∀ (a : Nat) (tx : Option Unit),
        socks5_poll_read ⟨some a, tx⟩ a true = (.ok (), ⟨some a, tx⟩, none)) := by
  refine ⟨fun addr => rfl, ?_, ?_⟩
  · intro a addr tx hne
    simp [socks5_poll_read, Ne.symm hne]
  · intro a tx
    simp [socks5_poll_read]

/-- C8 (witness): a packet from address 2 after address 1 was latched. -/
theorem socks5_recv_latch_witness :
    socks5_poll_read ⟨some 1, some ()⟩ 2 true
      = (.error .interrupted, ⟨some 1, some ()⟩, none) :=
  socks5_recv_latch_characterization.2.1 1 2 (some ()) (by decide)

/-- C7: in `CopyUdp::poll` the held address is cleared only when the relay
buffer has no remaining bytes after the write; a read that returns
`MixAddrType::None` resolves the future with `Ok(amt)`; and any `Ready(amt)`
resolution carries exactly the accumulated sum of the write sizes the writer
returned. -/
theorem copy_udp_driver_characterization :
    (∀ (st : CopyUdpState) (x : Nat), st.addr.isSome →
      (copyUdpWriteUpdate st x).addr = none → (st.buf.advance x).remaining = 0) ∧
    (∀ (fuel : Nat) (reads : List (MixAddrType × List Nat)) (writes : List Nat)
        (st : CopyUdpState) (data : List Nat), st.addr = none →
      copyUdpPoll (fuel + 1) ((MixAddrType.None, data) :: reads) writes st
        = (.ready st.amt, st, reads, writes)) ∧
    (∀ (fuel : Nat) (reads : List (MixAddrType × List Nat)) (writes : List Nat)
        (st : CopyUdpState) (amt : Nat) (st₂ : CopyUdpState)
        (reads₂ : List (MixAddrType × List Nat)) (writes₂ : List Nat),
      copyUdpPoll fuel reads writes st = (.ready amt, st₂, reads₂, writes₂) →
      ∃ k, writes₂ = writes.drop k ∧ amt = st.amt + (writes.take k).sum) := by
  refine ⟨?_, ?_, ?_⟩
  · intro st x hsome hnone
    unfold copyUdpWriteUpdate at hnone
    split at hnone
    · rw [hnone] at hsome
      simp at hsome
    · rename_i hrem
      simp only [UdpRelayBuffer.has_remaining, decide_eq_true_eq, not_lt] at hrem
      simp only [UdpRelayBuffer.remaining, UdpRelayBuffer.advance] at *
      omega
  · intro fuel reads writes st data hnone
    simp [copyUdpPoll, hnone, MixAddrType.is_none]
  · intro fuel
    induction fuel with
    | zero =>
      intro reads writes st amt st₂ reads₂ writes₂ heq
      simp [copyUdpPoll] at heq
    | succ fuel IH =>
      intro reads writes st amt st₂ reads₂ writes₂ heq
      simp only [copyUdpPoll] at heq
      rcases hA : st.addr with - | a
      · rw [hA] at heq
        rcases reads with - | ⟨⟨a, data⟩, reads₃⟩
        · simp at heq
        · simp only at heq
          split at heq
          · simp only [Prod.mk.injEq, RPoll.ready.injEq] at heq
            obtain ⟨rfl, rfl, rfl, rfl⟩ := heq
            exact ⟨0, by simp⟩
          · exact IH reads₃ writes ⟨st.buf.extend_from_slice data, some a, st.amt⟩
              amt st₂ reads₂ writes₂ heq
      · rw [hA] at heq
        rcases writes with - | ⟨x, writes₃⟩
        · simp at heq
        · simp only at heq
          obtain ⟨k, hk1, hk2⟩ := IH reads writes₃ (copyUdpWriteUpdate st x)
            amt st₂ reads₂ writes₂ heq
          refine ⟨k + 1, by simpa using hk1, ?_⟩
          rw [hk2]
          simp [copyUdpWriteUpdate]
          split <;> simp <;> omega

/-- C7 (witness): a one-step run that meets the end-of-stream read. -/
theorem copy_udp_driver_witness :
    copyUdpPoll 1 [(MixAddrType.None, [])] [] ⟨UdpRelayBuffer.empty, none, 0⟩
      = (.ready 0, ⟨UdpRelayBuffer.empty, none, 0⟩, [], []) :=
  copy_udp_driver_characterization.2.1 0 [] [] ⟨UdpRelayBuffer.empty, none, 0⟩ [] rfl

/-- C10: a successfully received datagram of fewer than 3 bytes makes
`poll_proxy_stream_read` return `Ok(MixAddrType::None)` — indistinguishable
from graceful shutdown — and the copy driver resolves with `Ok(amt)` on that
address value. -/
theorem socks5_short_datagram_end_of_stream :
    (∀ (buf : UdpRelayBuffer) (d : List Nat), d.length < 3 →
      socks5_poll_proxy_stream_read false buf d = (.ready (.ok .None), buf)) ∧
    (∀ (fuel : Nat) (reads : List (MixAddrType × List Nat)) (writes : List Nat)
        (st : CopyUdpState) (data : List Nat), st.addr = none →
      copyUdpPoll (fuel + 1) ((MixAddrType.None, data) :: reads) writes st
        = (.ready st.amt, st, reads, writes)) := by
  constructor
  · intro buf d hd
    unfold socks5_poll_proxy_stream_read
    rw [if_neg (by simp), if_pos hd]
  · intro fuel reads writes st data hnone
    simp [copyUdpPoll, hnone, MixAddrType.is_none]

/-- C10 (witness): a 2-byte datagram. -/
theorem socks5_short_datagram_end_of_stream_witness :
    socks5_poll_proxy_stream_read false UdpRelayBuffer.empty [0, 0]
      = (.ready (.ok .None), UdpRelayBuffer.empty) :=
  socks5_short_datagram_end_of_stream.1 UdpRelayBuffer.empty [0, 0] (by decide)

/-- C5: `handshake_tls12_server` writes the checked outbound packets followed
by `LEAVE_TLS_COMMAND` to the inbound side and pops them, performs exactly one
read, checks exactly one record from it, returns `Ok` exactly when that
record's type byte is `0xff`, and fails with `Invalid` when a complete record
of any other type arrives. -/
theorem handshake_tls12_server_characterization (ob ib : TlsRelayBuffer)
    (c : List Nat) (rest : List (List Nat)) (hne : c ≠ []) :
    (handshake_tls12_server ob ib (c :: rest)).2.2.2.1
        = ob.checked_packets ++ LEAVE_TLS_COMMAND ∧
    (handshake_tls12_server ob ib (c :: rest)).2.1
        = (if ob.checked_packets.length > 0 then ob.pop_checked_packets else ob) ∧
    (handshake_tls12_server ob ib (c :: rest)).2.2.2.2 = rest ∧
    (∀ t ib₂, (ib.appendBytes c).check_tls_packet = (.ok t, ib₂) →
      ((handshake_tls12_server ob ib (c :: rest)).1 = .ok () ↔ t = 0xff) ∧
      (t ≠ 0xff →
        (handshake_tls12_server ob ib (c :: rest)).1 = .error (.parser .Invalid))) ∧
    (∀ e ib₂, (ib.appendBytes c).check_tls_packet = (.error e, ib₂) →
      (handshake_tls12_server ob ib (c :: rest)).1 = .error (.parser e)) := by
  have hlen : ¬c.length = 0 := by
    intro h
    exact hne (List.length_eq_zero.mp h)
  unfold handshake_tls12_server
  dsimp only
  rw [if_neg hlen]
  rcases hM : (ib.appendBytes c).check_tls_packet with ⟨e | t, ib₀⟩
  · refine ⟨rfl, rfl, rfl, ?_, ?_⟩
    · intro t ib₂ h
      simp at h
    · intro e₂ ib₂ h
      obtain ⟨rfl, -⟩ : e = e₂ ∧ ib₀ = ib₂ := by simpa using h
      rfl
  · dsimp only
    by_cases ht : t = 0xff
    · subst ht
      rw [if_neg (by simp)]
      refine ⟨rfl, rfl, rfl, ?_, ?_⟩
      · intro t₂ ib₂ h
        obtain ⟨rfl, -⟩ : (0xff : Nat) = t₂ ∧ ib₀ = ib₂ := by simpa using h
        exact ⟨⟨fun _ => rfl, fun _ => rfl⟩, fun hx => absurd rfl hx⟩
      · intro e₂ ib₂ h
        simp at h
    · rw [if_pos ht]
      refine ⟨rfl, rfl, rfl, ?_, ?_⟩
      · intro t₂ ib₂ h
        obtain ⟨rfl, -⟩ : t = t₂ ∧ ib₀ = ib₂ := by simpa using h
        refine ⟨?_, fun _ => rfl⟩
        constructor
        · intro hx
          simp at hx
        · intro hx
          exact absurd hx ht
      · intro e₂ ib₂ h
        simp at h

/-- C5 (witness): empty outbound buffer and an inbound `0xff` record. -/
theorem handshake_tls12_server_witness :
    (handshake_tls12_server TlsRelayBuffer.new TlsRelayBuffer.new
        [[0xff, 0x03, 0x03, 0x00, 0x00]]).2.2.2.1 = LEAVE_TLS_COMMAND := by
  have h := handshake_tls12_server_characterization TlsRelayBuffer.new TlsRelayBuffer.new
      [0xff, 0x03, 0x03, 0x00, 0x00] [] (by decide)
  simpa [TlsRelayBuffer.new, TlsRelayBuffer.checked_packets] using h.1

/-- Indexing into the left part of an append. -/
theorem getD_append_left {l₁ l₂ : List Nat} {n : Nat} (h : n < l₁.length) :
    (l₁ ++ l₂).getD n 0 = l₁.getD n 0 := by
  simp only [List.getD_eq_getElem?_getD, List.getElem?_append]
  rw [if_pos h]

/-- Indexing into the right part of an append. -/
theorem getD_append_right {l₁ l₂ : List Nat} {n : Nat} (h : l₁.length ≤ n) :
    (l₁ ++ l₂).getD n 0 = l₂.getD (n - l₁.length) 0 := by
  simp [List.getD_eq_getElem?_getD, List.getElem?_append_right h]

/-- Indexing past two leading cons cells. -/
theorem getD_two_add (x y : Nat) (l : List Nat) (k : Nat) :
    (x :: y :: l).getD (2 + k) 0 = l.getD k 0 := by
  rw [Nat.add_comm 2 k, show k + 2 = k + 1 + 1 from rfl, List.getD_cons_succ,
    List.getD_cons_succ]

/-- Round trip of the address codec: decoding a buffer whose unconsumed bytes
start with the encoding of a valid address yields that address and advances
the cursor past its encoding. -/
theorem MixAddrType.from_encoded_write_buf {a : MixAddrType} (hv : a.valid)
    (buf : UdpRelayBuffer) (rest : List Nat) (hch : buf.chunk = a.write_buf ++ rest) :
    MixAddrType.from_encoded buf = .ok (a, buf.advance a.write_buf.length) := by
  unfold MixAddrType.from_encoded
  dsimp only
  rcases a with ⟨ip, port⟩ | ⟨ip, port⟩ | ⟨name, port⟩ | -
  · obtain ⟨hip, hport⟩ := hv
    have hc2 : buf.chunk = 1 :: (ip ++ (u16_be_bytes port ++ rest)) := by
      rw [hch]; simp [MixAddrType.write_buf]
    rw [hc2]
    have hL : (1 :: (ip ++ (u16_be_bytes port ++ rest))).length = 7 + rest.length := by
      simp [u16_be_bytes, hip]
      omega
    rw [show (1 :: (ip ++ (u16_be_bytes port ++ rest))).getD 0 0 = 1 from rfl]
    rw [if_neg (by omega), if_pos rfl, if_neg (by omega)]
    rw [show (1 :: (ip ++ (u16_be_bytes port ++ rest))).drop 1
      = ip ++ (u16_be_bytes port ++ rest) from rfl]
    rw [List.take_left' hip]
    have hg5 : (1 :: (ip ++ (u16_be_bytes port ++ rest))).getD 5 0 = port / 256 % 256 := by
      rw [List.getD_cons_succ, getD_append_right (by omega)]
      simp [hip, u16_be_bytes]
    have hg6 : (1 :: (ip ++ (u16_be_bytes port ++ rest))).getD 6 0 = port % 256 := by
      rw [List.getD_cons_succ, getD_append_right (by omega)]
      simp [hip, u16_be_bytes]
    rw [hg5, hg6, show port / 256 % 256 * 256 + port % 256 = port from by omega]
    rw [show (MixAddrType.V4 ip port).write_buf.length = 7 from by
      simp [MixAddrType.write_buf, u16_be_bytes, hip]]
  · obtain ⟨hip, hport⟩ := hv
    have hc2 : buf.chunk = 4 :: (ip ++ (u16_be_bytes port ++ rest)) := by
      rw [hch]; simp [MixAddrType.write_buf]
    rw [hc2]
    have hL : (4 :: (ip ++ (u16_be_bytes port ++ rest))).length = 19 + rest.length := by
      simp [u16_be_bytes, hip]
      omega
    rw [show (4 :: (ip ++ (u16_be_bytes port ++ rest))).getD 0 0 = 4 from rfl]
    rw [if_neg (by omega), if_neg (by omega), if_neg (by omega), if_pos rfl,
      if_neg (by omega)]
    rw [show (4 :: (ip ++ (u16_be_bytes port ++ rest))).drop 1
      = ip ++ (u16_be_bytes port ++ rest) from rfl]
    rw [List.take_left' hip]
    have hg17 : (4 :: (ip ++ (u16_be_bytes port ++ rest))).getD 17 0
        = port / 256 % 256 := by
      rw [List.getD_cons_succ, getD_append_right (by omega)]
      simp [hip, u16_be_bytes]
    have hg18 : (4 :: (ip ++ (u16_be_bytes port ++ rest))).getD 18 0 = port % 256 := by
      rw [List.getD_cons_succ, getD_append_right (by omega)]
      simp [hip, u16_be_bytes]
    rw [hg17, hg18, show port / 256 % 256 * 256 + port % 256 = port from by omega]
    rw [show (MixAddrType.V6 ip port).write_buf.length = 19 from by
      simp [MixAddrType.write_buf, u16_be_bytes, hip]]
  · obtain ⟨hpos, h255, hport⟩ := hv
    have hmod : name.length % 256 = name.length := Nat.mod_eq_of_lt (by omega)
    have hc2 : buf.chunk = 3 :: name.length :: (name ++ (u16_be_bytes port ++ rest)) := by
      rw [hch]; simp [MixAddrType.write_buf, hmod]
    rw [hc2]
    have hL : (3 :: name.length :: (name ++ (u16_be_bytes port ++ rest))).length
        = 4 + name.length + rest.length := by
      simp [u16_be_bytes]
      omega
    rw [show (3 :: name.length :: (name ++ (u16_be_bytes port ++ rest))).getD 0 0 = 3
      from rfl]
    rw [show (3 :: name.length :: (name ++ (u16_be_bytes port ++ rest))).getD 1 0
      = name.length from rfl]
    rw [if_neg (by omega), if_neg (by omega), if_pos rfl, if_neg (by omega),
      if_neg (by omega)]
    rw [show (3 :: name.length :: (name ++ (u16_be_bytes port ++ rest))).drop 2
      = name ++ (u16_be_bytes port ++ rest) from rfl]
    rw [List.take_left' rfl]
    have hgp1 : (3 :: name.length :: (name ++ (u16_be_bytes port ++ rest))).getD
        (2 + name.length) 0 = port / 256 % 256 := by
      rw [getD_two_add, getD_append_right (by omega)]
      simp [u16_be_bytes]
    have hgp2 : (3 :: name.length :: (name ++ (u16_be_bytes port ++ rest))).getD
        (3 + name.length) 0 = port % 256 := by
      rw [show (3 : Nat) + name.length = 2 + (name.length + 1) from by omega,
        getD_two_add, getD_append_right (by omega)]
      simp [u16_be_bytes]
    rw [hgp1, hgp2, show port / 256 % 256 * 256 + port % 256 = port from by omega]
    rw [show (MixAddrType.Hostname name port).write_buf.length = 4 + name.length from by
      simp [MixAddrType.write_buf, u16_be_bytes, hmod]
      omega]
  · exact absurd hv (by simp [MixAddrType.valid])


/-- Reading one whole Trojan UDP frame: the address comes back exactly, and
the payload handed out is the first `p.length mod 65536` bytes of `p` — the
length field holds `p.length as u16`. -/
theorem try_extract_packet_frame (a : MixAddrType) (hv : a.valid) (p : List Nat) :
    try_extract_packet ⟨⟨trojanFrame p a, 0⟩, none, .None⟩
      = (.ready (.ok a), ⟨⟨p.drop (p.length % 65536), 0⟩, none, .None⟩,
         p.take (p.length % 65536)) := by
  have hfr : trojanFrame p a
      = a.write_buf ++ (u16_be_bytes p.length ++ ([0x0d, 0x0a] ++ p)) := by
    simp [trojanFrame]
  have hchunk0 : (⟨trojanFrame p a, 0⟩ : UdpRelayBuffer).chunk
      = a.write_buf ++ (u16_be_bytes p.length ++ ([0x0d, 0x0a] ++ p)) := by
    simp [UdpRelayBuffer.chunk, hfr]
  have h1 : try_update_addr_buf ⟨⟨trojanFrame p a, 0⟩, none, .None⟩
      = (.ready (.ok ()), ⟨⟨trojanFrame p a, a.write_buf.length⟩, none, a⟩) := by
    unfold try_update_addr_buf
    dsimp only
    rw [if_pos (show MixAddrType.None.is_none = true from rfl),
      MixAddrType.from_encoded_write_buf hv _ _ hchunk0]
    simp [UdpRelayBuffer.advance]
  have hfl : (trojanFrame p a).length = a.write_buf.length + (4 + p.length) := by
    simp [hfr, u16_be_bytes]
    omega
  have h2 : try_update_expecting ⟨⟨trojanFrame p a, a.write_buf.length⟩, none, a⟩
      = (.ready (), ⟨⟨trojanFrame p a, a.write_buf.length + 4⟩,
          some (p.length % 65536), a⟩) := by
    unfold try_update_expecting
    dsimp only
    have hrem : (⟨trojanFrame p a, a.write_buf.length⟩ : UdpRelayBuffer).remaining
        = 4 + p.length := by
      simp [UdpRelayBuffer.remaining, hfl]
    rw [hrem, if_neg (by omega)]
    have hch1 : (⟨trojanFrame p a, a.write_buf.length⟩ : UdpRelayBuffer).chunk
        = u16_be_bytes p.length ++ ([0x0d, 0x0a] ++ p) := by
      simp only [UdpRelayBuffer.chunk, hfr]
      exact List.drop_left' rfl
    rw [hch1]
    have hg0 : (u16_be_bytes p.length ++ ([0x0d, 0x0a] ++ p)).getD 0 0
        = p.length / 256 % 256 := rfl
    have hg1 : (u16_be_bytes p.length ++ ([0x0d, 0x0a] ++ p)).getD 1 0
        = p.length % 256 := rfl
    have hcomb : p.length / 256 % 256 * 256 + p.length % 256 = p.length % 65536 := by
      omega
    rw [hg0, hg1, hcomb]
    rfl
  have hch2 : (⟨trojanFrame p a, a.write_buf.length + 4⟩ : UdpRelayBuffer).chunk = p := by
    simp only [UdpRelayBuffer.chunk, hfr, ← List.drop_drop, List.drop_left' rfl]
    rfl
  have hrem2 : (⟨trojanFrame p a, a.write_buf.length + 4⟩ : UdpRelayBuffer).remaining
      = p.length := by
    simp only [UdpRelayBuffer.remaining, hfl]
    omega
  have hdropp : (a.write_buf ++ (u16_be_bytes p.length ++ ([0x0d, 0x0a] ++ p))).drop
      (a.write_buf.length + 4) = p := by
    rw [← List.drop_drop, List.drop_left' rfl]
    rfl
  have hcp : (((⟨trojanFrame p a, a.write_buf.length + 4⟩ : UdpRelayBuffer).advance
      (p.length % 65536)).compact : UdpRelayBuffer)
      = ⟨p.drop (p.length % 65536), 0⟩ := by
    simp only [UdpRelayBuffer.advance, UdpRelayBuffer.compact, UdpRelayBuffer.mk.injEq,
      and_true]
    rw [← List.drop_drop, hfr, hdropp]
  unfold try_extract_packet
  rw [h1]
  dsimp only
  rw [h2]
  dsimp only
  rw [hrem2]
  have hgd : (some (p.length % 65536)).getD 0 = p.length % 65536 := rfl
  rw [hgd, if_pos (Nat.mod_le _ _), hcp, hch2]


/-- A frame whose payload is only partially resident stays pending. -/
theorem try_extract_packet_partial (a : MixAddrType) (hv : a.valid) (p : List Nat)
    (k : Nat) (hk : k < p.length % 65536) :
    (try_extract_packet ⟨⟨a.write_buf ++ (u16_be_bytes p.length
        ++ ([0x0d, 0x0a] ++ p.take k)), 0⟩, none, .None⟩).1 = .pending := by
  have hkp : k < p.length := lt_of_lt_of_le hk (Nat.mod_le _ _)
  have htk : (p.take k).length = k := List.length_take_of_le (le_of_lt hkp)
  have hchunk0 : (⟨a.write_buf ++ (u16_be_bytes p.length ++ ([0x0d, 0x0a] ++ p.take k)),
      0⟩ : UdpRelayBuffer).chunk
      = a.write_buf ++ (u16_be_bytes p.length ++ ([0x0d, 0x0a] ++ p.take k)) := by
    simp [UdpRelayBuffer.chunk]
  have h1 : try_update_addr_buf ⟨⟨a.write_buf ++ (u16_be_bytes p.length
      ++ ([0x0d, 0x0a] ++ p.take k)), 0⟩, none, .None⟩
      = (.ready (.ok ()), ⟨⟨a.write_buf ++ (u16_be_bytes p.length
          ++ ([0x0d, 0x0a] ++ p.take k)), a.write_buf.length⟩, none, a⟩) := by
    unfold try_update_addr_buf
    dsimp only
    rw [if_pos (show MixAddrType.None.is_none = true from rfl),
      MixAddrType.from_encoded_write_buf hv _ _ hchunk0]
    simp [UdpRelayBuffer.advance]
  have hfl : (a.write_buf ++ (u16_be_bytes p.length ++ ([0x0d, 0x0a] ++ p.take k))).length
      = a.write_buf.length + (4 + k) := by
    simp [u16_be_bytes, htk]
    omega
  have h2 : try_update_expecting ⟨⟨a.write_buf ++ (u16_be_bytes p.length
      ++ ([0x0d, 0x0a] ++ p.take k)), a.write_buf.length⟩, none, a⟩
      = (.ready (), ⟨⟨a.write_buf ++ (u16_be_bytes p.length ++ ([0x0d, 0x0a] ++ p.take k)),
          a.write_buf.length + 4⟩, some (p.length % 65536), a⟩) := by
    unfold try_update_expecting
    dsimp only
    have hrem : (⟨a.write_buf ++ (u16_be_bytes p.length ++ ([0x0d, 0x0a] ++ p.take k)),
        a.write_buf.length⟩ : UdpRelayBuffer).remaining = 4 + k := by
      simp only [UdpRelayBuffer.remaining, hfl]
      omega
    rw [hrem, if_neg (by omega)]
    have hch1 : (⟨a.write_buf ++ (u16_be_bytes p.length ++ ([0x0d, 0x0a] ++ p.take k)),
        a.write_buf.length⟩ : UdpRelayBuffer).chunk
        = u16_be_bytes p.length ++ ([0x0d, 0x0a] ++ p.take k) := by
      simp only [UdpRelayBuffer.chunk]
      exact List.drop_left' rfl
    rw [hch1]
    have hg0 : (u16_be_bytes p.length ++ ([0x0d, 0x0a] ++ p.take k)).getD 0 0
        = p.length / 256 % 256 := rfl
    have hg1 : (u16_be_bytes p.length ++ ([0x0d, 0x0a] ++ p.take k)).getD 1 0
        = p.length % 256 := rfl
    have hcomb : p.length / 256 % 256 * 256 + p.length % 256 = p.length % 65536 := by
      omega
    rw [hg0, hg1, hcomb]
    rfl
  have hrem2 : (⟨a.write_buf ++ (u16_be_bytes p.length ++ ([0x0d, 0x0a] ++ p.take k)),
      a.write_buf.length + 4⟩ : UdpRelayBuffer).remaining = k := by
    simp only [UdpRelayBuffer.remaining, hfl]
    omega
  unfold try_extract_packet
  rw [h1]
  dsimp only
  rw [h2]
  dsimp only
  rw [hrem2]
  have hgd : (some (p.length % 65536)).getD 0 = p.length % 65536 := rfl
  rw [hgd, if_neg (by omega)]

/-- A send on an empty send buffer whose inner write accepts the whole frame
emits exactly the frame and completes with the user payload length. -/
theorem trojan_poll_write_whole (st : TrojanSendHalf) (p : List Nat) (a : MixAddrType)
    (hempty : st.send_buffer.inner.length = 0) :
    trojan_poll_write st p a (some (trojanFrame p a).length)
      = (.ready p.length, ⟨UdpRelayBuffer.empty, p.length⟩, trojanFrame p a) := by
  have hfl : (trojanFrame p a).length = a.write_buf.length + 4 + p.length := by
    simp [trojanFrame, u16_be_bytes]
    omega
  unfold trojan_poll_write
  dsimp only
  rw [if_pos hempty]
  rw [if_neg (by omega)]
  have hrem : ((UdpRelayBuffer.empty.extend_from_slice (trojanFrame p a)
      : UdpRelayBuffer)).remaining = (trojanFrame p a).length := by
    simp [UdpRelayBuffer.remaining, UdpRelayBuffer.extend_from_slice, UdpRelayBuffer.empty]
  rw [hrem, if_neg (lt_irrefl _)]
  have hch : ((UdpRelayBuffer.empty.extend_from_slice (trojanFrame p a)
      : UdpRelayBuffer)).chunk = trojanFrame p a := by
    simp [UdpRelayBuffer.chunk, UdpRelayBuffer.extend_from_slice, UdpRelayBuffer.empty]
  rw [hch, List.take_length]

/-- C6 (amended): for every valid address and every payload of fewer than
65536 bytes, a completing `poll_proxy_stream_write` emits the frame
`[address][p.len as 2-byte big-endian][0D 0A][p]` and returns
`Ready(p.len())`, and `try_extract_packet` on those frame bytes yields exactly
the address and payload as one whole datagram, pending until the full payload
is resident.  (For payloads of 65536 bytes or more the length field wraps —
see the counterexample.) -/
theorem trojan_udp_roundtrip (a : MixAddrType) (p : List Nat) (st : TrojanSendHalf)
    (hv : a.valid) (hp : p.length < 65536) (hempty : st.send_buffer.inner.length = 0) :
    trojan_poll_write st p a (some (trojanFrame p a).length)
      = (.ready p.length, ⟨UdpRelayBuffer.empty, p.length⟩, trojanFrame p a) ∧
    trojanFrame p a
      = a.write_buf ++ ([p.length / 256, p.length % 256] ++ ([0x0d, 0x0a] ++ p)) ∧
    try_extract_packet ⟨⟨trojanFrame p a, 0⟩, none, .None⟩
      = (.ready (.ok a), ⟨⟨[], 0⟩, none, .None⟩, p) ∧
    (∀ k, k < p.length →
      (try_extract_packet ⟨⟨a.write_buf ++ (u16_be_bytes p.length
          ++ ([0x0d, 0x0a] ++ p.take k)), 0⟩, none, .None⟩).1 = .pending) := by
  refine ⟨trojan_poll_write_whole st p a hempty, ?_, ?_, ?_⟩
  · have : p.length / 256 % 256 = p.length / 256 := Nat.mod_eq_of_lt (by omega)
    simp [trojanFrame, u16_be_bytes, this]
  · have h := try_extract_packet_frame a hv p
    rwa [Nat.mod_eq_of_lt hp, List.drop_length, List.take_length] at h
  · intro k hk
    exact try_extract_packet_partial a hv p k (by rwa [Nat.mod_eq_of_lt hp])

/-- C6 (witness): round trip of payload `[1, 2, 3]` to `127.0.0.1:53`. -/
theorem trojan_udp_roundtrip_witness :
    try_extract_packet ⟨⟨trojanFrame [1, 2, 3] (.V4 [127, 0, 0, 1] 53), 0⟩, none, .None⟩
      = (.ready (.ok (.V4 [127, 0, 0, 1] 53)), ⟨⟨[], 0⟩, none, .None⟩, [1, 2, 3]) :=
  (trojan_udp_roundtrip (.V4 [127, 0, 0, 1] 53) [1, 2, 3] ⟨UdpRelayBuffer.empty, 0⟩
    ⟨rfl, by omega⟩ (by decide) rfl).2.2.1

/-- C6 (counterexample): with a payload of exactly 65536 bytes, the 2-byte
length field wraps to 0 and reading the written frame yields an empty payload
instead of `p` — the round-trip law fails for unrestricted payloads. -/
theorem trojan_udp_roundtrip_counterexample :
    (try_extract_packet ⟨⟨trojanFrame (List.replicate 65536 0) (.V4 [127, 0, 0, 1] 53),
        0⟩, none, .None⟩).2.2 ≠ List.replicate 65536 0 := by
  have h := try_extract_packet_frame (.V4 [127, 0, 0, 1] 53) ⟨rfl, by omega⟩
      (List.replicate 65536 0)
  rw [List.length_replicate, Nat.mod_self, List.take_zero, List.drop_zero] at h
  rw [h]
  intro hbad
  have hlen := congrArg List.length hbad
  rw [List.length_nil, List.length_replicate] at hlen
  omega

end TrojanOxide
